import Mathlib

/-! ## Verification of the koa request-handling core

This file embeds, in Lean 4, the request-handling core of the repository:
the middleware composer (onion-model dispatch), the per-request context
factory (`createContext`), the response finalizer (`respond`), the default
error sink (`onerror`) and the per-request driver (`handleRequest`), and
proves the ordering, isolation, finalization and error-handling properties
stated for them.

The application file (`src/examples/index.js`, second part) is the
authority for `createContext`, `respond`, `onerror` and `handleRequest`.
The middleware composer (`koa-compose`), the context/request/response
facade modules and the `statuses` table are dependencies that are not part
of the repository's own sources; they are modelled from the specification
of their interfaces, and each such definition says so in its doc comment.
-/

namespace Koa

/-! ## The middleware composer

Modelled from the spec: `koa-compose` is an external dependency (only
required by the application file), so the onion dispatch is embedded from
the specification's algorithm: a per-run dispatch index starting at `-1`;
`dispatch i` fails if `i` is at most the last dispatched index (continuation
invoked more than once), otherwise records `i`, and runs the middleware at
position `i` with continuation `dispatch (i+1)`; running past the end of
the list resolves trivially (no caller-supplied fallback is used by the
application).

Middleware are modelled synchronously: a middleware receives the current
run state and a continuation, and returns either the final state or a
protocol error.  The run state carries, besides the dispatch index, a
`log` written by the logging middleware of the claims and an
instrumentation list `calls` recording every position whose middleware
body was actually entered. A protocol error carries the dispatch index at
which the re-invocation was detected together with the state at that
moment. -/

/-- State of one composed-handler run: the last dispatched index (`-1`
before anything ran), the observation log written by middleware, and the
instrumentation record of entered middleware positions. -/
structure ComposeState where
  index : Int
  log : List Nat
  calls : List Nat
deriving Repr, DecidableEq

/-- Outcome of a run: the final state, or a composition-protocol error
(the dispatch index that was re-entered, with the state at that moment). -/
abbrev CResult := Except (Nat × ComposeState) ComposeState

/-- A middleware: takes the run state and a continuation. -/
abbrev Middleware := ComposeState → (ComposeState → CResult) → CResult

/-- Modelled from the spec: the composer's `dispatch`, restricted to the
suffix of the middleware list from position `i` (position `i`'s
continuation is `dispatch (i+1)` on the tail, re-checking the index each
time it is invoked). -/
def dispatchGo (i : Nat) (rest : List Middleware) (s : ComposeState) : CResult :=
  if (i : Int) ≤ s.index then
    .error (i, s)
  else
    match rest with
    | [] => .ok { s with index := (i : Int) }
    | fn :: tl =>
      fn { s with index := (i : Int), calls := s.calls ++ [i] }
        (fun s2 => dispatchGo (i + 1) tl s2)

/-- Modelled from the spec: the composed handler; each invocation restarts
the dispatch index at `-1` and dispatches position `0`. -/
def compose (mws : List Middleware) (s : ComposeState) : CResult :=
  dispatchGo 0 mws { s with index := -1 }

/-- The logging middleware of the spec's testable property: appends its
registration index `k` to the log, invokes its continuation once, and
appends `k` again after the continuation settles. -/
def loggerMW (k : Nat) : Middleware := fun s next =>
  match next { s with log := s.log ++ [k] } with
  | .ok s2 => .ok { s2 with log := s2.log ++ [k] }
  | .error e => .error e

/-- A well-behaved middleware that invokes its continuation exactly once
and contributes nothing else. -/
def okMW : Middleware := fun s next => next s

/-- A faulty middleware that invokes its continuation a second time after
the first invocation settles. -/
def badMW : Middleware := fun s next =>
  match next s with
  | .ok s2 => next s2
  | .error e => .error e

/-- The empty initial run state. -/
def initState : ComposeState := { index := -1, log := [], calls := [] }

/-! ## The context lifecycle factory

`createContext` (src/examples/index.js, lines 246-259) is embedded over an
explicit heap of prototype-linked objects: `Object.create(t)` allocates a
fresh object with no own properties whose prototype is `t`; property
writes always create or overwrite an own property; property reads walk
the prototype chain.  The raw `req`/`res` transport handles are heap
references supplied by the caller; `req.url` is an ordinary property
read. -/

/-- A JavaScript value as far as the factory is concerned: `undefined`, a
number, a string, or a reference to a heap object. -/
inductive JsVal where
  | jsUndefined
  | num (n : Int)
  | str (s : String)
  | ref (o : Nat)
deriving Repr, DecidableEq

/-- A heap object: own properties (insertion-ordered) and an optional
prototype reference. -/
structure JsObj where
  props : List (String × JsVal)
  proto : Option Nat
deriving Repr, DecidableEq

/-- The object heap: a bump allocator index and the object store. -/
structure Heap where
  next : Nat
  objs : Nat → JsObj

/-- `Object.create(proto)`: allocate a fresh object with no own
properties. -/
def Heap.alloc (h : Heap) (proto : Option Nat) : Nat × Heap :=
  (h.next,
   { next := h.next + 1,
     objs := fun i =>
       if i = h.next then { props := [], proto := proto } else h.objs i })

/-- Keyed assignment on an association list: overwrite in place, or
append a new key. -/
def setKey {A : Type} : List (String × A) → String → A → List (String × A)
  | [], k, v => [(k, v)]
  | (k0, v0) :: t, k, v =>
    if k0 = k then (k, v) :: t else (k0, v0) :: setKey t k v

/-- `o.k = v`: write an own property of object `o`. -/
def Heap.setOwn (h : Heap) (o : Nat) (k : String) (v : JsVal) : Heap :=
  { h with
    objs := fun i =>
      if i = o then
        { props := setKey (h.objs o).props k v, proto := (h.objs o).proto }
      else h.objs i }

/-- `o.k`: property read walking the prototype chain (`fuel` bounds the
walk; an absent property reads as `undefined`). -/
def Heap.getProp (h : Heap) : Nat → Nat → String → JsVal
  | 0, _, _ => .jsUndefined
  | fuel + 1, o, k =>
    match List.lookup k (h.objs o).props with
    | some v => v
    | none =>
      match (h.objs o).proto with
      | some par => h.getProp fuel par k
      | none => .jsUndefined

/-- The application-level data `createContext` reads: the heap id of the
application object and of its three shared template objects
(`this.context`, `this.request`, `this.response`). -/
structure App where
  self : Nat
  contextT : Nat
  requestT : Nat
  responseT : Nat

/-- `createContext(req, res)` from the application file: build the
per-request context and its request/response facades by prototype
delegation from the application templates, cross-link them, attach the
raw handles, snapshot `req.url` into `originalUrl`, and give the context
a freshly created empty `state` object.  Chained JavaScript assignments
are performed right to left. -/
def createContext (app : App) (req res : Nat) (h : Heap) : Nat × Heap :=
  let a1 := h.alloc (some app.contextT)
  let context := a1.1
  let a2 := a1.2.alloc (some app.requestT)
  let request := a2.1
  let h2 := a2.2.setOwn context "request" (.ref request)
  let a3 := h2.alloc (some app.responseT)
  let response := a3.1
  let h3 := a3.2.setOwn context "response" (.ref response)
  let h4 := ((h3.setOwn response "app" (.ref app.self)).setOwn request "app"
      (.ref app.self)).setOwn context "app" (.ref app.self)
  let h5 := ((h4.setOwn response "req" (.ref req)).setOwn request "req"
      (.ref req)).setOwn context "req" (.ref req)
  let h6 := ((h5.setOwn response "res" (.ref res)).setOwn request "res"
      (.ref res)).setOwn context "res" (.ref res)
  let h7 := (h6.setOwn response "ctx" (.ref context)).setOwn request "ctx"
      (.ref context)
  let h8 := h7.setOwn request "response" (.ref response)
  let h9 := h8.setOwn response "request" (.ref request)
  let url := h9.getProp 4 req "url"
  let h10 := (h9.setOwn request "originalUrl" url).setOwn context
      "originalUrl" url
  let a4 := h10.alloc none
  let stateObj := a4.1
  let h11 := a4.2.setOwn context "state" (.ref stateObj)
  (context, h11)

/-- Two contexts created by two separate `createContext` calls against the
same application (two simulated requests): the two context ids and the
resulting heap. -/
def twoContexts (app : App) (reqA resA reqB resB : Nat) (h0 : Heap) :
    Nat × Nat × Heap :=
  let r1 := createContext app reqA resA h0
  let r2 := createContext app reqB resB r1.2
  (r1.1, r2.1, r2.2)

/-! ## Byte-level payload encoding

`res.end(text)` writes the UTF-8 bytes of the text and
`Buffer.byteLength(text)` measures them; both are embedded through an
explicit UTF-8 encoder so that byte-identity of payloads is meaningful. -/

/-- UTF-8 encoding of one character. -/
def charUtf8 (c : Char) : List Nat :=
  let n := c.toNat
  if n < 128 then [n]
  else if n < 2048 then [192 + n / 64, 128 + n % 64]
  else if n < 65536 then [224 + n / 4096, 128 + n / 64 % 64, 128 + n % 64]
  else [240 + n / 262144, 128 + n / 4096 % 64, 128 + n / 64 % 64, 128 + n % 64]

/-- The UTF-8 bytes of a string. -/
def utf8Bytes (s : String) : List Nat := (s.data.map charUtf8).flatten

/-- `Buffer.byteLength(s)`. -/
def byteLength (s : String) : Nat := (utf8Bytes s).length

/-! ## The JSON serializer of the finalizer's structured-body branch

`JSON.stringify` and `JSON.parse` are JavaScript built-ins, not code of
this repository.  Modelled from the spec: a structured/composite body is
serialized to a canonical textual form with a lossless round-trip, so the
value domain is the JSON value type (numbers restricted to integers — the
round-trip property of the spec concerns the structural value, not
floating-point formatting), the serializer mirrors `JSON.stringify`
(insertion-ordered members, `\uXXXX` escapes for control characters) and
the deserializer mirrors the grammar `JSON.parse` accepts on such
output. -/

/-- A structured/composite JavaScript value as serialized by the
finalizer's final branch. -/
inductive JsonVal where
  | jnull
  | jbool (b : Bool)
  | jnum (n : Int)
  | jstr (s : String)
  | jarr (elems : List JsonVal)
  | jobj (members : List (String × JsonVal))
deriving Inhabited

/-- The decimal digit character for `d` (`d < 10`). -/
def digitCh (d : Nat) : Char := Char.ofNat (48 + d % 10)

/-- Decimal digits of `n`, most significant first, accumulated onto
`acc`; `fuel` bounds the division chain so the recursion is structural. -/
def natCharsAux : Nat → Nat → List Char → List Char
  | 0, _, acc => acc
  | fuel + 1, n, acc =>
    if n < 10 then digitCh n :: acc
    else natCharsAux fuel (n / 10) (digitCh (n % 10) :: acc)

/-- Decimal digit characters of `n`, most significant first. -/
def natChars (n : Nat) : List Char := natCharsAux (n + 1) n []

/-- `String(n)` for an integer: optional minus sign, then digits. -/
def intChars (n : Int) : List Char :=
  if n < 0 then '-' :: natChars n.natAbs else natChars n.natAbs

/-- The lowercase hexadecimal digit character for `d` (`d < 16`). -/
def hexCh (d : Nat) : Char :=
  if d < 10 then Char.ofNat (48 + d) else Char.ofNat (87 + d)

/-- JSON escaping of one character, as `JSON.stringify` performs it. -/
def escChar (c : Char) : List Char :=
  if c = '"' then ['\\', '"']
  else if c = '\\' then ['\\', '\\']
  else if c = Char.ofNat 10 then ['\\', 'n']
  else if c = Char.ofNat 13 then ['\\', 'r']
  else if c = Char.ofNat 9 then ['\\', 't']
  else if c = Char.ofNat 8 then ['\\', 'b']
  else if c = Char.ofNat 12 then ['\\', 'f']
  else if c.toNat < 32 then
    ['\\', 'u', '0', '0', hexCh (c.toNat / 16), hexCh (c.toNat % 16)]
  else [c]

/-- JSON escaping of a character list. -/
def escList (l : List Char) : List Char := (l.map escChar).flatten

/-- A JSON string literal: quote, escaped body, quote. -/
def quoteStr (s : String) : List Char := '"' :: escList s.data ++ ['"']

mutual

/-- `JSON.stringify`, producing a character list. -/
def jsonChars : JsonVal → List Char
  | .jnull => ['n', 'u', 'l', 'l']
  | .jbool true => ['t', 'r', 'u', 'e']
  | .jbool false => ['f', 'a', 'l', 's', 'e']
  | .jnum n => intChars n
  | .jstr s => quoteStr s
  | .jarr es => '[' :: jsonElemsChars es ++ [']']
  | .jobj ms => '\x7b' :: jsonMembersChars ms ++ ['\x7d']

/-- Comma-separated serialized array elements. -/
def jsonElemsChars : List JsonVal → List Char
  | [] => []
  | [v] => jsonChars v
  | v :: vs => jsonChars v ++ ',' :: jsonElemsChars vs

/-- Comma-separated serialized object members. -/
def jsonMembersChars : List (String × JsonVal) → List Char
  | [] => []
  | [(k, v)] => quoteStr k ++ ':' :: jsonChars v
  | (k, v) :: ms => quoteStr k ++ ':' :: jsonChars v ++ ',' :: jsonMembersChars ms

end

/-- `JSON.stringify` as a string. -/
def jsonStringify (v : JsonVal) : String := ⟨jsonChars v⟩

/-- The numeric value of a hexadecimal digit character. -/
def hexValAt (c : Char) : Option Nat :=
  let n := c.toNat
  if 48 ≤ n ∧ n ≤ 57 then some (n - 48)
  else if 97 ≤ n ∧ n ≤ 102 then some (n - 87)
  else if 65 ≤ n ∧ n ≤ 70 then some (n - 55)
  else none

/-- Unescaping of a single-character JSON escape. -/
def unescCh (c : Char) : Option Char :=
  if c = '"' then some '"'
  else if c = '\\' then some '\\'
  else if c = '/' then some '/'
  else if c = 'n' then some (Char.ofNat 10)
  else if c = 'r' then some (Char.ofNat 13)
  else if c = 't' then some (Char.ofNat 9)
  else if c = 'b' then some (Char.ofNat 8)
  else if c = 'f' then some (Char.ofNat 12)
  else none

/-- Parse a JSON string body after its opening quote, returning the
decoded characters and the remainder after the closing quote. -/
def parseStrBody : List Char → Option (List Char × List Char)
  | [] => none
  | c :: r =>
    if c = '"' then some ([], r)
    else if c = '\\' then
      match r with
      | 'u' :: a :: b :: c2 :: d :: r2 =>
        (match hexValAt a, hexValAt b, hexValAt c2, hexValAt d with
         | some va, some vb, some vc, some vd =>
           (match parseStrBody r2 with
            | some (l, r3) =>
              some (Char.ofNat (((va * 16 + vb) * 16 + vc) * 16 + vd) :: l, r3)
            | none => none)
         | _, _, _, _ => none)
      | e :: r2 =>
        (match unescCh e with
         | some u =>
           (match parseStrBody r2 with
            | some (l, r3) => some (u :: l, r3)
            | none => none)
         | none => none)
      | [] => none
    else
      match parseStrBody r with
      | some (l, r2) => some (c :: l, r2)
      | none => none

/-- A remainder that cannot extend a parsed number: empty, or headed by a
non-digit.  Every JSON delimiter qualifies. -/
def numBoundary : List Char → Bool
  | [] => true
  | c :: _ => !c.isDigit

/-- Split off a leading run of decimal digits. -/
def splitDigits (cs : List Char) : List Char × List Char :=
  (cs.takeWhile (fun c => c.isDigit), cs.dropWhile (fun c => c.isDigit))

/-- The numeric value of a digit run. -/
def digitsVal (ds : List Char) : Nat :=
  ds.foldl (fun a c => a * 10 + (c.toNat - 48)) 0

mutual

/-- `JSON.parse` on the canonical output of the serializer (fuel-bounded
recursive descent; one fuel unit per recursion step). -/
def parseVal : Nat → List Char → Option (JsonVal × List Char)
  | 0, _ => none
  | _ + 1, [] => none
  | fuel + 1, c :: r =>
    if c = 'n' then
      match r with
      | 'u' :: 'l' :: 'l' :: r2 => some (.jnull, r2)
      | _ => none
    else if c = 't' then
      match r with
      | 'r' :: 'u' :: 'e' :: r2 => some (.jbool true, r2)
      | _ => none
    else if c = 'f' then
      match r with
      | 'a' :: 'l' :: 's' :: 'e' :: r2 => some (.jbool false, r2)
      | _ => none
    else if c = '"' then
      match parseStrBody r with
      | some (l, r2) => some (.jstr ⟨l⟩, r2)
      | none => none
    else if c = '[' then
      match r with
      | ']' :: r2 => some (.jarr [], r2)
      | _ =>
        match parseElems fuel r with
        | some (vs, r2) => some (.jarr vs, r2)
        | none => none
    else if c = '\x7b' then
      match r with
      | '\x7d' :: r2 => some (.jobj [], r2)
      | _ =>
        match parseMembers fuel r with
        | some (ms, r2) => some (.jobj ms, r2)
        | none => none
    else if c = '-' then
      match splitDigits r with
      | (d :: ds, r2) => some (.jnum (-(digitsVal (d :: ds) : Int)), r2)
      | ([], _) => none
    else if c.isDigit then
      some (.jnum ((digitsVal (splitDigits (c :: r)).1 : Int)),
        (splitDigits (c :: r)).2)
    else none

/-- One-or-more comma-separated elements, up to the closing bracket. -/
def parseElems : Nat → List Char → Option (List JsonVal × List Char)
  | 0, _ => none
  | fuel + 1, cs =>
    match parseVal fuel cs with
    | some (v, r) =>
      (match r with
       | ',' :: r2 =>
         (match parseElems fuel r2 with
          | some (vs, r3) => some (v :: vs, r3)
          | none => none)
       | ']' :: r2 => some ([v], r2)
       | _ => none)
    | none => none

/-- One-or-more comma-separated members, up to the closing brace. -/
def parseMembers : Nat → List Char → Option (List (String × JsonVal) × List Char)
  | 0, _ => none
  | fuel + 1, cs =>
    match cs with
    | '"' :: r =>
      (match parseStrBody r with
       | some (k, r1) =>
         (match r1 with
          | ':' :: r2 =>
            (match parseVal fuel r2 with
             | some (v, r3) =>
               (match r3 with
                | ',' :: r4 =>
                  (match parseMembers fuel r4 with
                   | some (ms, r5) => some ((⟨k⟩, v) :: ms, r5)
                   | none => none)
                | '\x7d' :: r4 => some ([(⟨k⟩, v)], r4)
                | _ => none)
             | none => none)
          | _ => none)
       | none => none)
    | _ => none

end

/-- `JSON.parse` on a complete document. -/
def parseJson (s : String) : Option JsonVal :=
  match parseVal (s.length + 1) s.data with
  | some (v, []) => some v
  | _ => none

/-! ## The transport response and the per-request context

The transport response handle exposes what the finalizer consumes
(§6 of the spec): a mutable status code, a headers-sent flag, named
headers, `end(payload?)` and being the sink of a piped stream.  Terminal
operations are recorded as events so that "`end` is called exactly once"
is observable. -/

/-- A terminal operation on the transport response. -/
inductive REvent where
  | endCall (payload : Option (List Nat))
  | pipeCall (sid : Nat)
deriving Repr, DecidableEq

/-- The transport response handle. -/
structure Res where
  statusCode : Nat
  headersSent : Bool
  headers : List (String × String)
  events : List REvent
deriving Repr, DecidableEq

/-- `res.setHeader` (as used by the facade's `type`/`length` setters). -/
def Res.setHeader (r : Res) (k v : String) : Res :=
  { r with headers := setKey r.headers k v }

/-- `response.remove(name)`. -/
def Res.removeHeader (r : Res) (k : String) : Res :=
  { r with headers := r.headers.filter (fun p => p.1 != k) }

/-- `response.has(name)`. -/
def Res.hasHeader (r : Res) (k : String) : Bool :=
  (r.headers.lookup k).isSome

/-- `res.end(payload?)`: record the terminal write. -/
def Res.endWith (r : Res) (p : Option (List Nat)) : Res :=
  { r with events := r.events ++ [.endCall p], headersSent := true }

/-- `body.pipe(res)`: record the stream connection (completion is then
driven by the stream, not the finalizer). -/
def Res.pipeFrom (r : Res) (sid : Nat) : Res :=
  { r with events := r.events ++ [.pipeCall sid] }

/-- `ctx.body`: absent, a Buffer, a string, a Stream, or any other
(structured) value. -/
inductive Body where
  | null
  | buf (bytes : List Nat)
  | str (s : String)
  | stream (sid : Nat)
  | json (v : JsonVal)
deriving Inhabited

/-- The slice of the per-request context the finalizer, error sink and
driver consume.  `respond` is the explicit opt-out field (absent unless a
middleware set it); `writable` is the transport writability check;
`explicitNullBody` is the response facade's explicit-null flag. -/
structure Ctx where
  respond : Option Bool
  writable : Bool
  method : String
  httpVersionMajor : Nat
  body : Body
  explicitNullBody : Bool
  res : Res

/-- `ctx.status`: the facade delegates to the transport status code. -/
def Ctx.status (c : Ctx) : Nat := c.res.statusCode

/-- Modelled from the spec: `statuses.empty` of the external `statuses`
module — the status class that forbids a body (204, 205, 304). -/
def emptyStatus (code : Nat) : Bool :=
  code == 204 || code == 205 || code == 304

/-- Modelled from the spec: the human-readable message table of the
external `statuses` module (the entries exercised here). -/
def statusMessage (code : Nat) : Option String :=
  if code = 200 then some "OK"
  else if code = 201 then some "Created"
  else if code = 204 then some "No Content"
  else if code = 304 then some "Not Modified"
  else if code = 400 then some "Bad Request"
  else if code = 404 then some "Not Found"
  else if code = 500 then some "Internal Server Error"
  else none

/-- Modelled from the spec: `ctx.message` — the response facade's message
accessor, the status's human-readable message. -/
def Ctx.message (c : Ctx) : Option String := statusMessage c.status

/-- Modelled from the spec: the content type installed by the facade's
`type = 'text'` setter (the mime table is external). -/
def textContentType : String := "text/plain; charset=utf-8"

/-- Modelled from the spec: assigning `null` to the facade's body (the
finalizer's "discard any body" step) records the explicit-null flag and
strips the body-related headers. -/
def Ctx.setBodyNull (c : Ctx) : Ctx :=
  { c with
    body := .null,
    explicitNullBody := true,
    res := ((c.res.removeHeader "Content-Type").removeHeader
        "Content-Length").removeHeader "Transfer-Encoding" }

/-- Modelled from the spec: the facade's `response.length` accessor as the
HEAD branch uses it — the would-be byte length of the current body
(undefined for absent bodies and streams). -/
def Body.wouldBeLength : Body → Option Nat
  | .null => none
  | .buf l => some l.length
  | .str s => some (byteLength s)
  | .stream _ => none
  | .json v => some (byteLength (jsonStringify v))

/-- The fallback textual body of the null-body branch: `String(code)`
when the protocol major version is at least 2, otherwise
`ctx.message || String(code)`. -/
def fallbackBody (c : Ctx) : String :=
  if 2 ≤ c.httpVersionMajor then toString c.status
  else
    match c.message with
    | some m => if m = "" then toString c.status else m
    | none => toString c.status

/-- `respond(ctx)` (src/examples/index.js, lines 285-361): the response
finalizer.  Bypass when `ctx.respond === false` or the response is no
longer writable; otherwise walk the decision table: no-body status class,
HEAD, absent body (explicit-null or synthesized fallback), Buffer,
string, stream, and JSON serialization for everything else. -/
def respond (c : Ctx) : Ctx :=
  if c.respond = some false then c
  else if c.writable = false then c
  else
    let code := c.status
    if emptyStatus code then
      let c1 := c.setBodyNull
      { c1 with res := c1.res.endWith none }
    else if c.method = "HEAD" then
      let c1 :=
        if c.res.headersSent = false ∧ c.res.hasHeader "Content-Length" = false then
          match c.body.wouldBeLength with
          | some n => { c with res := c.res.setHeader "Content-Length" (toString n) }
          | none => c
        else c
      { c1 with res := c1.res.endWith none }
    else
      match c.body with
      | .null =>
        if c.explicitNullBody then
          let r := (c.res.removeHeader "Content-Type").removeHeader
              "Transfer-Encoding"
          { c with res := r.endWith none }
        else
          let b := fallbackBody c
          let r :=
            if c.res.headersSent = false then
              (c.res.setHeader "Content-Type" textContentType).setHeader
                "Content-Length" (toString (byteLength b))
            else c.res
          { c with res := r.endWith (some (utf8Bytes b)) }
      | .buf l => { c with res := c.res.endWith (some l) }
      | .str s => { c with res := c.res.endWith (some (utf8Bytes s)) }
      | .stream sid => { c with res := c.res.pipeFrom sid }
      | .json v =>
        let b := jsonStringify v
        let r :=
          if c.res.headersSent = false then
            c.res.setHeader "Content-Length" (toString (byteLength b))
          else c.res
        { c with res := r.endWith (some (utf8Bytes b)) }

/-- An argument handed to the application's default error handler: either
not a well-formed `Error` value (with its `%j`-formatted display), or an
error object carrying `status`, `expose`, `stack`, name and message. -/
inductive ErrInput where
  | notErr (display : String)
  | err (status : Option Nat) (expose : Bool) (stack : Option String)
      (name : String) (message : String)
deriving Repr, DecidableEq

/-- Modelled from the spec: JavaScript's `Error.prototype.toString`. -/
def errToString (name message : String) : String :=
  if message = "" then name else name ++ ": " ++ message

/-- Insert two spaces after every newline. -/
def indentChars : List Char → List Char
  | [] => []
  | c :: t =>
    if c = '\n' then '\n' :: ' ' :: ' ' :: indentChars t
    else c :: indentChars t

/-- `msg.replace(/^/gm, '  ')`: indent every line by two spaces. -/
def indentLines (s : String) : String := ⟨' ' :: ' ' :: indentChars s.data⟩

/-- `err.stack || err.toString()`: the diagnostic detail reported by the
error sink (the string form is used when the stack is absent or
falsy-empty). -/
def diagMsg (stack : Option String) (name message : String) : String :=
  match stack with
  | some st => if st = "" then errToString name message else st
  | none => errToString name message

/-- `onerror(err)` (src/examples/index.js, lines 268-278): throws a
`TypeError` on a non-error value; returns silently for a 404 status, an
exposed error, or a silent application; otherwise writes a blank line,
the indented diagnostic, and a blank line to the operator console, and
returns.  The `.ok` list holds the `console.error` writes of the call. -/
def onerror (silent : Bool) : ErrInput → Except String (List String)
  | .notErr display => .error ("non-error thrown: " ++ display)
  | .err status expose stack name message =>
    if status = some 404 ∨ expose = true then .ok []
    else if silent then .ok []
    else .ok ["", indentLines (diagMsg stack name message), ""]

/-- `handleRequest(ctx, fnMiddleware)` (src/examples/index.js, lines
221-238): preset the transport status code to 404, run the composed
pipeline on the context, finalize with `respond` on success, and surface
a pipeline failure (routed to the context error handler, which is outside
the application file) as the error itself. -/
def handleRequest (c : Ctx) (fnMiddleware : Ctx → Except String Ctx) :
    Except String Ctx :=
  let c0 := { c with res := { c.res with statusCode := 404 } }
  match fnMiddleware c0 with
  | .ok c1 => .ok (respond c1)
  | .error e => .error e

/-- A transport response in its initial state with status 200. -/
def res200 : Res :=
  { statusCode := 200, headersSent := false, headers := [], events := [] }

/-- A plain GET context over HTTP/1.1 against `res200`, with no body. -/
def ctx200 : Ctx :=
  { respond := none, writable := true, method := "GET", httpVersionMajor := 1,
    body := .null, explicitNullBody := false, res := res200 }

end Koa

namespace Koa

/-! ## Composer lemmas -/

/-- `dispatchGo` only consults the incoming `index` through the guard, so
two states below the guard with equal `log` and `calls` dispatch equally. -/
theorem dispatchGo_index_irrel (i : Nat) (rest : List Middleware)
    (s t : ComposeState) (hs : s.index < (i : Int)) (ht : t.index < (i : Int))
    (hlog : s.log = t.log) (hcalls : s.calls = t.calls) :
    dispatchGo i rest s = dispatchGo i rest t := by
  unfold dispatchGo
  rw [if_neg (by omega), if_neg (by omega)]
  cases rest with
  | nil => simp [hlog, hcalls]
  | cons fn tl => rw [hlog, hcalls]

/-- Running a block of `k` well-behaved middleware starting at position `i`
just forwards dispatch to position `i + k`, recording the entered
positions. -/
theorem dispatchGo_okRun (k : Nat) : ∀ (i : Nat) (rest : List Middleware)
    (s : ComposeState), s.index < (i : Int) →
    dispatchGo i (List.replicate k okMW ++ rest) s =
      dispatchGo (i + k) rest
        { s with index := (i : Int) + k - 1, calls := s.calls ++ List.range' i k } := by
  induction k with
  | zero =>
    intro i rest s hs
    simp only [List.replicate, List.nil_append, List.range', List.append_nil, Nat.add_zero]
    exact dispatchGo_index_irrel i rest s _ hs (by simp) rfl rfl
  | succ k ih =>
    intro i rest s hs
    rw [List.replicate_succ, List.cons_append]
    have h1 : dispatchGo i (okMW :: (List.replicate k okMW ++ rest)) s =
        dispatchGo (i + 1) (List.replicate k okMW ++ rest)
          { s with index := (i : Int), calls := s.calls ++ [i] } := by
      conv_lhs => rw [dispatchGo]
      rw [if_neg (by omega)]
      rfl
    rw [h1, ih (i + 1) rest _ (by simp)]
    have he : i + 1 + k = i + (k + 1) := by omega
    rw [he]
    apply dispatchGo_index_irrel
    · simp; omega
    · simp
    · rfl
    · simp only [List.append_assoc, List.range'_succ, List.singleton_append]

/-- Running a block of logging middleware (registered at positions
`i, i+1, …, i+k-1`) resolves, leaves the dispatch index at the position
past the block, and extends the log by the ascending positions followed by
the same positions descending. -/
theorem dispatchGo_loggerRun (k : Nat) : ∀ (i : Nat) (s : ComposeState),
    s.index < (i : Int) →
    dispatchGo i ((List.range' i k).map loggerMW) s =
      .ok { index := ((i + k : Nat) : Int),
            log := s.log ++ List.range' i k ++ (List.range' i k).reverse,
            calls := s.calls ++ List.range' i k } := by
  induction k with
  | zero =>
    intro i s hs
    simp only [List.range', List.map_nil, List.reverse_nil, List.append_nil, Nat.add_zero]
    unfold dispatchGo
    rw [if_neg (by omega)]
  | succ k ih =>
    intro i s hs
    rw [List.range'_succ, List.map_cons]
    conv_lhs => rw [dispatchGo]
    rw [if_neg (by omega)]
    have hstep := ih (i + 1)
      { index := (i : Int), log := s.log ++ [i], calls := s.calls ++ [i] } (by simp)
    show (match dispatchGo (i + 1) ((List.range' (i + 1) k).map loggerMW)
        { index := (i : Int), log := s.log ++ [i], calls := s.calls ++ [i] } with
      | .ok s2 => Except.ok { s2 with log := s2.log ++ [i] }
      | .error e => Except.error e) = _
    rw [hstep]
    have he : i + 1 + k = i + (k + 1) := by omega
    simp [List.range'_succ, List.append_assoc, he]

/-! ## Claims C1 and C2 -/

/-- C1: Composing `n` logging middleware (each appending its index before
and after invoking its continuation) and running the composed handler from
the initial state resolves with the log `[0, …, n-1, n-1, …, 0]`
(downstream ascending, upstream descending); for `n = 0` the log is empty
and the run completes immediately. -/
theorem compose_logger_onion (n : Nat) :
    compose ((List.range n).map loggerMW) initState =
      .ok { index := (n : Int),
            log := List.range n ++ (List.range n).reverse,
            calls := List.range n } := by
  unfold compose initState
  rw [List.range_eq_range']
  rw [dispatchGo_loggerRun n 0 _ (by simp)]
  simp

/-- Assembling the entered positions of a faulty run into one range. -/
theorem range'_assemble (p q : Nat) :
    (List.range' 0 p ++ [p]) ++ List.range' (p + 1) q = List.range (p + 1 + q) := by
  rw [List.range_eq_range']
  have h1 : List.range' 0 p ++ [p] = List.range' 0 (p + 1) := by
    rw [List.range'_concat]
    simp
  rw [h1, show p + 1 + q = q + (p + 1) from by omega]
  simpa using List.range'_append 0 (p + 1) q 1

/-- C2: in a pipeline of `p` well-behaved middleware, then one middleware
that invokes its continuation twice, then `q` well-behaved middleware, the
run fails with the composition-protocol error raised at dispatch index
`p + 1` (so the middleware at the previous index, which is the offender,
is the one attributable), and every middleware body — in particular every
one after the offender — was entered at most once. -/
theorem compose_double_next (p q : Nat) :
    compose (List.replicate p okMW ++ badMW :: List.replicate q okMW) initState =
      .error (p + 1,
        { index := ((p + 1 + q : Nat) : Int), log := [],
          calls := List.range (p + 1 + q) })
    ∧ (List.replicate p okMW ++ badMW :: List.replicate q okMW)[(p + 1) - 1]? =
        some badMW
    ∧ ∀ j, (List.range (p + 1 + q)).count j ≤ 1 := by
  refine ⟨?_, ?_, fun j => List.nodup_iff_count_le_one.mp (List.nodup_range _) j⟩
  · unfold compose initState
    rw [dispatchGo_okRun p 0 _ _ (by simp)]
    simp only [List.nil_append, Nat.zero_add, Nat.cast_zero, zero_add, Nat.cast_ofNat]
    conv_lhs => rw [dispatchGo]
    rw [if_neg (by push_cast; omega)]
    show (match dispatchGo (p + 1) (List.replicate q okMW)
        { index := (p : Int), log := [], calls := List.range' 0 p ++ [p] } with
      | .ok s2 => dispatchGo (p + 1) (List.replicate q okMW) s2
      | .error e => Except.error e) = _
    have h2 := dispatchGo_okRun q (p + 1) []
      { index := (p : Int), log := [], calls := List.range' 0 p ++ [p] } (by simp)
    rw [List.append_nil] at h2
    rw [h2]
    dsimp only
    have h3 : dispatchGo (p + 1 + q) []
        { index := ((p + 1 : Nat) : Int) + (q : Int) - 1, log := [],
          calls := (List.range' 0 p ++ [p]) ++ List.range' (p + 1) q } =
        .ok ({ index := ((p + 1 + q : Nat) : Int),
               log := [],
               calls := (List.range' 0 p ++ [p]) ++ List.range' (p + 1) q }) := by
      unfold dispatchGo
      rw [if_neg (by push_cast; omega)]
    have h4 : dispatchGo (p + 1) (List.replicate q okMW)
        { index := ((p + 1 + q : Nat) : Int), log := [],
          calls := (List.range' 0 p ++ [p]) ++ List.range' (p + 1) q } =
        .error ((p + 1,
          { index := ((p + 1 + q : Nat) : Int),
            log := [],
            calls := (List.range' 0 p ++ [p]) ++ List.range' (p + 1) q })) := by
      unfold dispatchGo
      rw [if_pos (by push_cast; omega)]
    rw [h3]
    dsimp only
    rw [h4, range'_assemble]
  · simp only [Nat.add_sub_cancel]
    rw [List.getElem?_append_right (by simp)]
    simp

/-! ## Factory lemmas -/

/-- Unfolding equations for the heap operations, phrased so that a heap
expression evaluates outside-in. -/
theorem alloc_fst (h : Heap) (p : Option Nat) : (h.alloc p).1 = h.next := rfl

theorem alloc_next (h : Heap) (p : Option Nat) :
    (h.alloc p).2.next = h.next + 1 := rfl

theorem alloc_objs (h : Heap) (p : Option Nat) (i : Nat) :
    (h.alloc p).2.objs i =
      if i = h.next then { props := [], proto := p } else h.objs i := rfl

theorem setOwn_next (h : Heap) (o : Nat) (k : String) (v : JsVal) :
    (h.setOwn o k v).next = h.next := rfl

theorem setOwn_objs (h : Heap) (o : Nat) (k : String) (v : JsVal) (i : Nat) :
    (h.setOwn o k v).objs i =
      if i = o then
        { props := setKey (h.objs o).props k v, proto := (h.objs o).proto }
      else h.objs i := rfl

/-- What one `createContext` call does to the heap: the returned context
is the first of four fresh objects (context, request facade, response
facade, state bag), the context delegates to the application's context
template and owns `request`/`response`/`state` references to the fresh
objects, the state bag is empty with no prototype, and every other object
is untouched. -/
theorem createContext_spec (app : App) (req res : Nat) (h : Heap) :
    (createContext app req res h).1 = h.next ∧
    (createContext app req res h).2.next = h.next + 4 ∧
    ((createContext app req res h).2.objs h.next).proto = some app.contextT ∧
    List.lookup "request" ((createContext app req res h).2.objs h.next).props
      = some (.ref (h.next + 1)) ∧
    List.lookup "response" ((createContext app req res h).2.objs h.next).props
      = some (.ref (h.next + 2)) ∧
    List.lookup "state" ((createContext app req res h).2.objs h.next).props
      = some (.ref (h.next + 3)) ∧
    (createContext app req res h).2.objs (h.next + 3)
      = { props := [], proto := none } ∧
    ∀ i, i ≠ h.next → i ≠ h.next + 1 → i ≠ h.next + 2 → i ≠ h.next + 3 →
      (createContext app req res h).2.objs i = h.objs i := by
  refine ⟨rfl, rfl, ?_, ?_, ?_, ?_, ?_, ?_⟩
  · simp_arith [createContext, alloc_fst, alloc_next, setOwn_next, alloc_objs,
      setOwn_objs, setKey]
  · simp_arith [createContext, alloc_fst, alloc_next, setOwn_next, alloc_objs,
      setOwn_objs, setKey, List.lookup]
  · simp_arith [createContext, alloc_fst, alloc_next, setOwn_next, alloc_objs,
      setOwn_objs, setKey, List.lookup]
  · simp_arith [createContext, alloc_fst, alloc_next, setOwn_next, alloc_objs,
      setOwn_objs, setKey, List.lookup]
  · simp_arith [createContext, alloc_fst, alloc_next, setOwn_next, alloc_objs,
      setOwn_objs, setKey]
  · intro i hi0 hi1 hi2 hi3
    simp_arith [createContext, alloc_fst, alloc_next, setOwn_next, alloc_objs,
      setOwn_objs, hi0, hi1, hi2, hi3]

/-- C3: two contexts produced by separate `createContext` calls receive
fresh, distinct, initially empty `state` objects while both delegate
unset reads to the same application context template; writing
`state.x = 1` through the first context is visible through it and reads
as `undefined` through the second. -/
theorem createContext_state_isolation (h0 : Heap) (app : App)
    (reqA resA reqB resB : Nat) :
    (twoContexts app reqA resA reqB resB h0).1 = h0.next ∧
    (twoContexts app reqA resA reqB resB h0).2.1 = h0.next + 4 ∧
    h0.next ≠ h0.next + 4 ∧
    (twoContexts app reqA resA reqB resB h0).2.2.getProp 2 h0.next "state"
      = .ref (h0.next + 3) ∧
    (twoContexts app reqA resA reqB resB h0).2.2.getProp 2 (h0.next + 4) "state"
      = .ref (h0.next + 7) ∧
    h0.next + 3 ≠ h0.next + 7 ∧
    ((twoContexts app reqA resA reqB resB h0).2.2.objs (h0.next + 3)).props = [] ∧
    ((twoContexts app reqA resA reqB resB h0).2.2.objs (h0.next + 7)).props = [] ∧
    ((twoContexts app reqA resA reqB resB h0).2.2.objs h0.next).proto
      = some app.contextT ∧
    ((twoContexts app reqA resA reqB resB h0).2.2.objs (h0.next + 4)).proto
      = some app.contextT ∧
    ((twoContexts app reqA resA reqB resB h0).2.2.setOwn (h0.next + 3) "x"
        (.num 1)).getProp 2 (h0.next + 3) "x" = .num 1 ∧
    ((twoContexts app reqA resA reqB resB h0).2.2.setOwn (h0.next + 3) "x"
        (.num 1)).getProp 2 (h0.next + 7) "x" = .jsUndefined := by
  obtain ⟨e1c, e1n, e1p, e1req, e1res, e1st, e1so, e1f⟩ :=
    createContext_spec app reqA resA h0
  obtain ⟨e2c, e2n, e2p, e2req, e2res, e2st, e2so, e2f⟩ :=
    createContext_spec app reqB resB (createContext app reqA resA h0).2
  rw [e1n] at e2c e2p e2req e2res e2st e2so e2f
  have hObjA : (createContext app reqB resB
        (createContext app reqA resA h0).2).2.objs h0.next
      = (createContext app reqA resA h0).2.objs h0.next :=
    e2f h0.next (by omega) (by omega) (by omega) (by omega)
  have hObjSA : (createContext app reqB resB
        (createContext app reqA resA h0).2).2.objs (h0.next + 3)
      = { props := [], proto := none } := by
    rw [e2f (h0.next + 3) (by omega) (by omega) (by omega) (by omega), e1so]
  have hObjSB : (createContext app reqB resB
        (createContext app reqA resA h0).2).2.objs (h0.next + 7)
      = { props := [], proto := none } := by
    have h74 : h0.next + 7 = h0.next + 4 + 3 := by omega
    rw [h74, e2so]
  simp only [twoContexts]
  refine ⟨e1c, e2c, by omega, ?_, ?_, by omega, ?_, ?_, ?_, ?_, ?_, ?_⟩
  · show Heap.getProp _ (1 + 1) _ _ = _
    rw [Heap.getProp, hObjA, e1st]
  · show Heap.getProp _ (1 + 1) _ _ = _
    rw [Heap.getProp, e2st]
  · rw [hObjSA]
  · rw [hObjSB]
  · rw [hObjA, e1p]
  · exact e2p
  · show Heap.getProp _ (1 + 1) _ _ = _
    rw [Heap.getProp, setOwn_objs, if_pos rfl, hObjSA]
    simp [setKey]
  · show Heap.getProp _ (1 + 1) _ _ = _
    rw [Heap.getProp, setOwn_objs, if_neg (by omega), hObjSB]
    simp

/-! ## Header-lookup lemmas -/

theorem lookup_setKey_self {A : Type} (l : List (String × A)) (k : String)
    (v : A) : (setKey l k v).lookup k = some v := by
  induction l with
  | nil => simp [setKey, List.lookup]
  | cons p t ih =>
    obtain ⟨k0, v0⟩ := p
    by_cases h : k0 = k
    · simp [setKey, h, List.lookup]
    · have hbe : (k == k0) = false := by
        simp [Ne.symm h]
      simp [setKey, h, List.lookup, hbe, ih]

theorem lookup_setKey_ne {A : Type} (l : List (String × A)) (k k2 : String)
    (v : A) (h : k2 ≠ k) : (setKey l k v).lookup k2 = l.lookup k2 := by
  have hbe : (k2 == k) = false := by simp [h]
  induction l with
  | nil => simp [setKey, List.lookup, hbe]
  | cons p t ih =>
    obtain ⟨k0, v0⟩ := p
    by_cases h0 : k0 = k
    · subst h0
      simp [setKey, List.lookup, hbe]
    · simp [setKey, h0, List.lookup, ih]

theorem lookup_none_of_keys {A : Type} (l : List (String × A)) (k : String)
    (h : ∀ p ∈ l, p.1 ≠ k) : l.lookup k = none := by
  induction l with
  | nil => rfl
  | cons p t ih =>
    obtain ⟨k0, v0⟩ := p
    have hk : k0 ≠ k := h (k0, v0) (by simp)
    have hbe : (k == k0) = false := by simp [Ne.symm hk]
    simp only [List.lookup, hbe]
    exact ih (fun q hq => h q (by simp [hq]))

theorem lookup_filter_self {A : Type} (l : List (String × A)) (k : String) :
    (l.filter (fun p => p.1 != k)).lookup k = none := by
  apply lookup_none_of_keys
  intro p hp
  have := (List.mem_filter.mp hp).2
  simpa using this

theorem lookup_filter_ne {A : Type} (l : List (String × A)) (k k2 : String)
    (h : k2 ≠ k) :
    (l.filter (fun p => p.1 != k)).lookup k2 = l.lookup k2 := by
  induction l with
  | nil => rfl
  | cons p t ih =>
    obtain ⟨k0, v0⟩ := p
    by_cases h0 : k0 = k
    · have hb1 : (k0 != k) = false := by simp [h0]
      have hb2 : (k2 == k0) = false := by
        rw [h0]
        simp [h]
      simp only [List.filter, hb1, List.lookup, hb2, ih]
    · have hb1 : (k0 != k) = true := by simp [h0]
      by_cases h2 : k2 = k0
      · have hb2 : (k2 == k0) = true := by simp [h2]
        simp only [List.filter, hb1, List.lookup, hb2]
      · have hb2 : (k2 == k0) = false := by simp [h2]
        simp only [List.filter, hb1, List.lookup, hb2, ih]

/-! ## Finalizer branch equations -/

theorem respond_eq_skip (c : Ctx)
    (h : c.respond = some false ∨ c.writable = false) : respond c = c := by
  unfold respond
  rcases h with h | h
  · rw [if_pos h]
  · by_cases hr : c.respond = some false
    · rw [if_pos hr]
    · rw [if_neg hr, if_pos h]

theorem respond_eq_empty (c : Ctx) (h1 : c.respond ≠ some false)
    (h2 : c.writable = true) (hs : emptyStatus c.status = true) :
    respond c = { c.setBodyNull with res := c.setBodyNull.res.endWith none } := by
  simp only [respond]
  rw [if_neg h1, if_neg (by simp [h2]), if_pos hs]

theorem respond_eq_head (c : Ctx) (h1 : c.respond ≠ some false)
    (h2 : c.writable = true) (hs : emptyStatus c.status = false)
    (hm : c.method = "HEAD") :
    respond c =
      (let c1 :=
        if c.res.headersSent = false ∧ c.res.hasHeader "Content-Length" = false
        then
          match c.body.wouldBeLength with
          | some n =>
            { c with res := c.res.setHeader "Content-Length" (toString n) }
          | none => c
        else c
       { c1 with res := c1.res.endWith none }) := by
  simp only [respond]
  rw [if_neg h1, if_neg (by simp [h2]), if_neg (by simp [hs]), if_pos hm]

theorem respond_eq_explicit_null (c : Ctx) (h1 : c.respond ≠ some false)
    (h2 : c.writable = true) (hs : emptyStatus c.status = false)
    (hm : c.method ≠ "HEAD") (hb : c.body = .null)
    (hx : c.explicitNullBody = true) :
    respond c =
      { c with res := ((c.res.removeHeader "Content-Type").removeHeader
          "Transfer-Encoding").endWith none } := by
  simp only [respond]
  rw [if_neg h1, if_neg (by simp [h2]), if_neg (by simp [hs]), if_neg hm, hb]
  simp only [if_pos hx]

theorem respond_eq_null_fallback (c : Ctx) (h1 : c.respond ≠ some false)
    (h2 : c.writable = true) (hs : emptyStatus c.status = false)
    (hm : c.method ≠ "HEAD") (hb : c.body = .null)
    (hx : c.explicitNullBody = false) :
    respond c =
      { c with res :=
        (if c.res.headersSent = false then
          (c.res.setHeader "Content-Type" textContentType).setHeader
            "Content-Length" (toString (byteLength (fallbackBody c)))
         else c.res).endWith (some (utf8Bytes (fallbackBody c))) } := by
  simp only [respond]
  rw [if_neg h1, if_neg (by simp [h2]), if_neg (by simp [hs]), if_neg hm, hb]
  simp only [hx]
  rw [if_neg (by simp)]

theorem respond_eq_buf (c : Ctx) (h1 : c.respond ≠ some false)
    (h2 : c.writable = true) (hs : emptyStatus c.status = false)
    (hm : c.method ≠ "HEAD") (l : List Nat) (hb : c.body = .buf l) :
    respond c = { c with res := c.res.endWith (some l) } := by
  simp only [respond]
  rw [if_neg h1, if_neg (by simp [h2]), if_neg (by simp [hs]), if_neg hm, hb]

theorem respond_eq_str (c : Ctx) (h1 : c.respond ≠ some false)
    (h2 : c.writable = true) (hs : emptyStatus c.status = false)
    (hm : c.method ≠ "HEAD") (str0 : String) (hb : c.body = .str str0) :
    respond c = { c with res := c.res.endWith (some (utf8Bytes str0)) } := by
  simp only [respond]
  rw [if_neg h1, if_neg (by simp [h2]), if_neg (by simp [hs]), if_neg hm, hb]

theorem respond_eq_stream (c : Ctx) (h1 : c.respond ≠ some false)
    (h2 : c.writable = true) (hs : emptyStatus c.status = false)
    (hm : c.method ≠ "HEAD") (sid : Nat) (hb : c.body = .stream sid) :
    respond c = { c with res := c.res.pipeFrom sid } := by
  simp only [respond]
  rw [if_neg h1, if_neg (by simp [h2]), if_neg (by simp [hs]), if_neg hm, hb]

theorem respond_eq_json (c : Ctx) (h1 : c.respond ≠ some false)
    (h2 : c.writable = true) (hs : emptyStatus c.status = false)
    (hm : c.method ≠ "HEAD") (v : JsonVal) (hb : c.body = .json v) :
    respond c =
      { c with res :=
        (if c.res.headersSent = false then
          c.res.setHeader "Content-Length"
            (toString (byteLength (jsonStringify v)))
         else c.res).endWith (some (utf8Bytes (jsonStringify v))) } := by
  simp only [respond]
  rw [if_neg h1, if_neg (by simp [h2]), if_neg (by simp [hs]), if_neg hm, hb]

/-- `respond` never changes the transport status code. -/
theorem respond_statusCode (c : Ctx) :
    (respond c).res.statusCode = c.res.statusCode := by
  by_cases h1 : c.respond = some false
  · rw [respond_eq_skip c (Or.inl h1)]
  · by_cases h2 : c.writable = false
    · rw [respond_eq_skip c (Or.inr h2)]
    · rw [Bool.not_eq_false] at h2
      by_cases hs : emptyStatus c.status = true
      · rw [respond_eq_empty c h1 h2 hs]
        simp [Ctx.setBodyNull, Res.endWith, Res.removeHeader]
      · rw [Bool.not_eq_true] at hs
        by_cases hm : c.method = "HEAD"
        · rw [respond_eq_head c h1 h2 hs hm]
          cases hwl : c.body.wouldBeLength <;>
            split_ifs <;> simp [hwl, Res.endWith, Res.setHeader]
        · cases hb : c.body with
          | null =>
            by_cases hx : c.explicitNullBody = true
            · rw [respond_eq_explicit_null c h1 h2 hs hm hb hx]
              simp [Res.endWith, Res.removeHeader]
            · rw [Bool.not_eq_true] at hx
              rw [respond_eq_null_fallback c h1 h2 hs hm hb hx]
              split_ifs <;> simp [Res.endWith, Res.setHeader]
          | buf l =>
            rw [respond_eq_buf c h1 h2 hs hm l hb]
            simp [Res.endWith]
          | str s0 =>
            rw [respond_eq_str c h1 h2 hs hm s0 hb]
            simp [Res.endWith]
          | stream sid =>
            rw [respond_eq_stream c h1 h2 hs hm sid hb]
            simp [Res.pipeFrom]
          | json v =>
            rw [respond_eq_json c h1 h2 hs hm v hb]
            split_ifs <;> simp [Res.endWith, Res.setHeader]

/-! ## Claims C4 - C7 -/

/-- C6: `respond` writes nothing to the transport when the context's
bypass flag is set (`respond === false`) or the response is no longer
writable (the context and its response come back unchanged); otherwise it
takes exactly one branch of the decision table, appending exactly one
terminal event (one `end`, or one stream pipe). -/
theorem respond_bypass_or_one_terminal (c : Ctx) :
    ((c.respond = some false ∨ c.writable = false) → respond c = c) ∧
    (c.respond ≠ some false → c.writable = true →
      ∃ e, (respond c).res.events = c.res.events ++ [e]) := by
  constructor
  · exact respond_eq_skip c
  · intro h1 h2
    by_cases hs : emptyStatus c.status = true
    · rw [respond_eq_empty c h1 h2 hs]
      exact ⟨.endCall none,
        by simp [Ctx.setBodyNull, Res.endWith, Res.removeHeader]⟩
    · rw [Bool.not_eq_true] at hs
      by_cases hm : c.method = "HEAD"
      · rw [respond_eq_head c h1 h2 hs hm]
        refine ⟨.endCall none, ?_⟩
        cases hwl : c.body.wouldBeLength <;>
          split_ifs <;> simp [hwl, Res.endWith, Res.setHeader]
      · cases hb : c.body with
        | null =>
          by_cases hx : c.explicitNullBody = true
          · rw [respond_eq_explicit_null c h1 h2 hs hm hb hx]
            exact ⟨.endCall none, by simp [Res.endWith, Res.removeHeader]⟩
          · rw [Bool.not_eq_true] at hx
            rw [respond_eq_null_fallback c h1 h2 hs hm hb hx]
            refine ⟨.endCall (some (utf8Bytes (fallbackBody c))), ?_⟩
            split_ifs <;> simp [Res.endWith, Res.setHeader]
        | buf l =>
          rw [respond_eq_buf c h1 h2 hs hm l hb]
          exact ⟨.endCall (some l), by simp [Res.endWith]⟩
        | str s0 =>
          rw [respond_eq_str c h1 h2 hs hm s0 hb]
          exact ⟨.endCall (some (utf8Bytes s0)), by simp [Res.endWith]⟩
        | stream sid =>
          rw [respond_eq_stream c h1 h2 hs hm sid hb]
          exact ⟨.pipeCall sid, by simp [Res.pipeFrom]⟩
        | json v =>
          rw [respond_eq_json c h1 h2 hs hm v hb]
          refine ⟨.endCall (some (utf8Bytes (jsonStringify v))), ?_⟩
          split_ifs <;> simp [Res.endWith, Res.setHeader]

/-- Witness for C6 at a bypassing and a non-bypassing context. -/
theorem respond_bypass_or_one_terminal_witness :
    respond { ctx200 with respond := some false }
      = { ctx200 with respond := some false } ∧
    ∃ e, (respond ctx200).res.events = ctx200.res.events ++ [e] :=
  ⟨(respond_bypass_or_one_terminal { ctx200 with respond := some false }).1
    (Or.inl rfl),
   (respond_bypass_or_one_terminal ctx200).2 (by decide) rfl⟩

/-- C5: for a status in the no-body class, `respond` discards any body a
middleware set (the context's body becomes null), ends the response with
no payload, and the finalized response carries no content-length and no
content-type header. -/
theorem respond_no_body_status (c : Ctx)
    (hs : emptyStatus c.status = true)
    (h1 : c.respond ≠ some false) (h2 : c.writable = true) :
    (respond c).body = .null ∧
    (respond c).res.events = c.res.events ++ [.endCall none] ∧
    (respond c).res.headers.lookup "Content-Length" = none ∧
    (respond c).res.headers.lookup "Content-Type" = none := by
  rw [respond_eq_empty c h1 h2 hs]
  refine ⟨rfl, by simp [Ctx.setBodyNull, Res.endWith, Res.removeHeader], ?_, ?_⟩
  · show ((((c.res.removeHeader "Content-Type").removeHeader
        "Content-Length").removeHeader "Transfer-Encoding").headers).lookup
        "Content-Length" = none
    simp only [Res.removeHeader]
    rw [lookup_filter_ne _ _ _ (by decide), lookup_filter_self]
  · show ((((c.res.removeHeader "Content-Type").removeHeader
        "Content-Length").removeHeader "Transfer-Encoding").headers).lookup
        "Content-Type" = none
    simp only [Res.removeHeader]
    rw [lookup_filter_ne _ _ _ (by decide), lookup_filter_ne _ _ _ (by decide),
      lookup_filter_self]

/-- Witness for C5 at status 204 with a non-empty string body and
previously set body headers. -/
theorem respond_no_body_status_witness :
    (respond { respond := none, writable := true, method := "GET",
               httpVersionMajor := 1, body := .str "hello",
               explicitNullBody := false,
               res := { statusCode := 204, headersSent := false,
                        headers := [("Content-Type", "text/html"),
                                    ("Content-Length", "5")],
                        events := [] } }).body = .null ∧
    (respond { respond := none, writable := true, method := "GET",
               httpVersionMajor := 1, body := .str "hello",
               explicitNullBody := false,
               res := { statusCode := 204, headersSent := false,
                        headers := [("Content-Type", "text/html"),
                                    ("Content-Length", "5")],
                        events := [] } }).res.events = [.endCall none] ∧
    (respond { respond := none, writable := true, method := "GET",
               httpVersionMajor := 1, body := .str "hello",
               explicitNullBody := false,
               res := { statusCode := 204, headersSent := false,
                        headers := [("Content-Type", "text/html"),
                                    ("Content-Length", "5")],
                        events := [] } }).res.headers.lookup "Content-Length"
      = none ∧
    (respond { respond := none, writable := true, method := "GET",
               httpVersionMajor := 1, body := .str "hello",
               explicitNullBody := false,
               res := { statusCode := 204, headersSent := false,
                        headers := [("Content-Type", "text/html"),
                                    ("Content-Length", "5")],
                        events := [] } }).res.headers.lookup "Content-Type"
      = none := by
  have h := respond_no_body_status
    { respond := none, writable := true, method := "GET",
      httpVersionMajor := 1, body := .str "hello",
      explicitNullBody := false,
      res := { statusCode := 204, headersSent := false,
               headers := [("Content-Type", "text/html"),
                           ("Content-Length", "5")],
               events := [] } } rfl (by decide) rfl
  exact ⟨h.1, h.2.1, h.2.2.1, h.2.2.2⟩

/-- C4: for an absent body outside the no-body class, a non-HEAD method
and no explicit-null flag, `respond` ends the response with the
synthesized fallback text (`String(code)` for protocol major version at
least 2, otherwise the status message or `String(code)`), and when
headers are unsent it sets the plain-text content type and a length
header equal to the fallback's byte length. -/
theorem respond_null_fallback_payload (c : Ctx)
    (hb : c.body = .null) (hs : emptyStatus c.status = false)
    (hm : c.method ≠ "HEAD") (hx : c.explicitNullBody = false)
    (h1 : c.respond ≠ some false) (h2 : c.writable = true) :
    (respond c).res.events
      = c.res.events ++ [.endCall (some (utf8Bytes (fallbackBody c)))] ∧
    (c.res.headersSent = false →
      (respond c).res.headers.lookup "Content-Type" = some textContentType ∧
      (respond c).res.headers.lookup "Content-Length"
        = some (toString (byteLength (fallbackBody c)))) := by
  rw [respond_eq_null_fallback c h1 h2 hs hm hb hx]
  constructor
  · cases hhs : c.res.headersSent <;>
      simp [hhs, Res.endWith, Res.setHeader]
  · intro hhs
    rw [if_pos hhs]
    constructor
    · show (setKey (setKey c.res.headers "Content-Type" textContentType)
          "Content-Length" (toString (byteLength (fallbackBody c)))).lookup
          "Content-Type" = some textContentType
      rw [lookup_setKey_ne _ _ _ _ (by decide), lookup_setKey_self]
    · show (setKey (setKey c.res.headers "Content-Type" textContentType)
          "Content-Length" (toString (byteLength (fallbackBody c)))).lookup
          "Content-Length" = some (toString (byteLength (fallbackBody c)))
      rw [lookup_setKey_self]

/-- Witness for C4: status 200, HTTP/1.1, message "OK" produces the
payload "OK" (bytes `[79, 75]`) and a length header of 2. -/
theorem respond_null_fallback_payload_witness :
    (respond ctx200).res.events = [.endCall (some [79, 75])] ∧
    (respond ctx200).res.headers.lookup "Content-Type"
      = some "text/plain; charset=utf-8" ∧
    (respond ctx200).res.headers.lookup "Content-Length" = some "2" := by
  have h := respond_null_fallback_payload ctx200 rfl rfl (by decide) rfl
    (by decide) rfl
  obtain ⟨he, hh⟩ := h
  obtain ⟨hct, hcl⟩ := hh rfl
  refine ⟨?_, ?_, ?_⟩
  · rw [he]; decide
  · rw [hct]; rfl
  · rw [hcl]; decide

/-- C7: for a Buffer or string body outside the no-body class with a
non-HEAD method, `respond` ends the response with a payload byte-identical
to the body, whatever the status code. -/
theorem respond_raw_payload (c : Ctx)
    (hs : emptyStatus c.status = false) (hm : c.method ≠ "HEAD")
    (h1 : c.respond ≠ some false) (h2 : c.writable = true) :
    (∀ l, c.body = .buf l →
      (respond c).res.events = c.res.events ++ [.endCall (some l)]) ∧
    (∀ s0, c.body = .str s0 →
      (respond c).res.events
        = c.res.events ++ [.endCall (some (utf8Bytes s0))]) := by
  constructor
  · intro l hb
    rw [respond_eq_buf c h1 h2 hs hm l hb]
    simp [Res.endWith]
  · intro s0 hb
    rw [respond_eq_str c h1 h2 hs hm s0 hb]
    simp [Res.endWith]

/-- Witness for C7 at status 505 with a three-byte Buffer body and with a
string body. -/
theorem respond_raw_payload_witness :
    (respond { respond := none, writable := true, method := "GET",
               httpVersionMajor := 1, body := .buf [1, 2, 3],
               explicitNullBody := false,
               res := { statusCode := 505, headersSent := false,
                        headers := [], events := [] } }).res.events
      = [.endCall (some [1, 2, 3])] ∧
    (respond { respond := none, writable := true, method := "GET",
               httpVersionMajor := 1, body := .str "hi",
               explicitNullBody := false,
               res := { statusCode := 505, headersSent := false,
                        headers := [], events := [] } }).res.events
      = [.endCall (some [104, 105])] := by
  constructor
  · have h := (respond_raw_payload
      { respond := none, writable := true, method := "GET",
        httpVersionMajor := 1, body := .buf [1, 2, 3],
        explicitNullBody := false,
        res := { statusCode := 505, headersSent := false, headers := [],
                 events := [] } } rfl (by decide) (by decide) rfl).1 [1, 2, 3] rfl
    rw [h]; decide
  · have h := (respond_raw_payload
      { respond := none, writable := true, method := "GET",
        httpVersionMajor := 1, body := .str "hi",
        explicitNullBody := false,
        res := { statusCode := 505, headersSent := false, headers := [],
                 events := [] } } rfl (by decide) (by decide) rfl).2 "hi" rfl
    rw [h]; decide

/-! ## Claims C9 and C10 -/

/-- C9: the default error sink throws a `TypeError` on a value that is
not a well-formed error; returns without reporting for a 404-status or
exposed error or when the application is silent; and otherwise reports
the indented diagnostic detail (stack, or the error's string form) on the
operator console and returns normally — for a well-formed error it always
returns (never terminates the process). -/
theorem onerror_spec (silent : Bool) :
    (∀ d, onerror silent (.notErr d) = .error ("non-error thrown: " ++ d)) ∧
    (∀ st ex sk n m, st = some 404 ∨ ex = true →
      onerror silent (.err st ex sk n m) = .ok []) ∧
    (∀ st ex sk n m, silent = true →
      onerror silent (.err st ex sk n m) = .ok []) ∧
    (∀ st ex sk n m, st ≠ some 404 → ex = false → silent = false →
      onerror silent (.err st ex sk n m)
        = .ok ["", indentLines (diagMsg sk n m), ""]) ∧
    (∀ st ex sk n m, ∃ out, onerror silent (.err st ex sk n m) = .ok out) := by
  refine ⟨fun d => rfl, ?_, ?_, ?_, ?_⟩
  · intro st ex sk n m h
    simp [onerror, h]
  · intro st ex sk n m hsil
    by_cases h : st = some 404 ∨ ex = true
    · simp [onerror, h]
    · simp [onerror, h, hsil]
  · intro st ex sk n m h404 hex hsil
    have hno : ¬(st = some 404 ∨ ex = true) := by simp [h404, hex]
    simp [onerror, hno, hsil]
  · intro st ex sk n m
    by_cases h : st = some 404 ∨ ex = true
    · exact ⟨[], by simp [onerror, h]⟩
    · by_cases hsil : silent = true
      · exact ⟨[], by simp [onerror, h, hsil]⟩
      · refine ⟨["", indentLines (diagMsg sk n m), ""], ?_⟩
        simp [onerror, h, hsil]

/-- Witness for C9 at the four behaviors of the sink. -/
theorem onerror_spec_witness :
    onerror false (.notErr "0") = .error "non-error thrown: 0" ∧
    onerror false (.err (some 404) false none "NotFoundError" "x") = .ok [] ∧
    onerror true (.err (some 500) false none "Error" "x") = .ok [] ∧
    onerror false (.err (some 500) false (some "boom\nat f") "Error" "boom")
      = .ok ["", "  boom\n  at f", ""] := by
  refine ⟨(onerror_spec false).1 "0",
    (onerror_spec false).2.1 _ _ _ _ _ (Or.inl rfl),
    (onerror_spec true).2.2.1 _ _ _ _ _ rfl, ?_⟩
  have h := (onerror_spec false).2.2.2.1 (some 500) false (some "boom\nat f")
    "Error" "boom" (by decide) rfl rfl
  rw [h]
  have hmsg : indentLines (diagMsg (some "boom\nat f") "Error" "boom")
      = "  boom\n  at f" := by decide
  rw [hmsg]

/-- C10: `handleRequest` presets the transport status code to 404 before
invoking the composed pipeline; if the pipeline succeeds without
assigning a status or body, the finalized response still carries status
404 and its payload is the finalizer's synthesized fallback for that
status. -/
theorem handleRequest_presets_404 (c : Ctx) (f : Ctx → Except String Ctx)
    (c1 : Ctx)
    (hf : f { c with res := { c.res with statusCode := 404 } } = .ok c1)
    (hstat : c1.res.statusCode = 404)
    (hbody : c1.body = .null)
    (hm : c1.method ≠ "HEAD") (hx : c1.explicitNullBody = false)
    (hr : c1.respond ≠ some false) (hw : c1.writable = true) :
    handleRequest c f = .ok (respond c1) ∧
    (respond c1).res.statusCode = 404 ∧
    (respond c1).res.events
      = c1.res.events ++ [.endCall (some (utf8Bytes (fallbackBody c1)))] := by
  refine ⟨?_, ?_, ?_⟩
  · simp only [handleRequest]
    rw [hf]
  · rw [respond_statusCode, hstat]
  · have hs : emptyStatus c1.status = false := by
      simp only [Ctx.status]
      rw [hstat]
      decide
    rw [respond_eq_null_fallback c1 hr hw hs hm hbody hx]
    cases hhs : c1.res.headersSent <;> simp [hhs, Res.endWith, Res.setHeader]

/-- Witness for C10: an identity pipeline against `ctx200` yields status
404 with the payload "Not Found". -/
theorem handleRequest_presets_404_witness :
    ∃ c2, handleRequest ctx200 (fun c => .ok c) = .ok c2 ∧
      c2.res.statusCode = 404 ∧
      c2.res.events
        = [.endCall (some [78, 111, 116, 32, 70, 111, 117, 110, 100])] := by
  have h := handleRequest_presets_404 ctx200 (fun c => .ok c)
    { ctx200 with res := { ctx200.res with statusCode := 404 } }
    rfl rfl rfl (by decide) rfl (by decide) rfl
  exact ⟨respond { ctx200 with res := { ctx200.res with statusCode := 404 } },
    h.1, h.2.1, by rw [h.2.2]; decide⟩

/-! ## Digit and hexadecimal character lemmas -/

theorem digitCh_spec (d : Nat) (h : d < 10) :
    (digitCh d).toNat - 48 = d ∧ (digitCh d).isDigit = true := by
  have key : ∀ e ∈ List.range 10,
      (digitCh e).toNat - 48 = e ∧ (digitCh e).isDigit = true := by decide
  exact key d (List.mem_range.mpr h)

theorem hexValAt_hexCh (d : Nat) (h : d < 16) : hexValAt (hexCh d) = some d := by
  have key : ∀ e ∈ List.range 16, hexValAt (hexCh e) = some e := by decide
  exact key d (List.mem_range.mpr h)

/-- A digit character is none of the tokens the value parser dispatches
on, and none of the JSON delimiters. -/
theorem isDigit_not_marker (c : Char) (h : c.isDigit = true) :
    c ≠ 'n' ∧ c ≠ 't' ∧ c ≠ 'f' ∧ c ≠ '"' ∧ c ≠ '[' ∧ c ≠ '\x7b' ∧
    c ≠ '-' ∧ c ≠ ']' ∧ c ≠ '\x7d' ∧ c ≠ ',' ∧ c ≠ ':' := by
  refine ⟨?_, ?_, ?_, ?_, ?_, ?_, ?_, ?_, ?_, ?_, ?_⟩ <;>
    (intro hc; rw [hc] at h; exact absurd h (by decide))

/-! ## Decimal rendering lemmas -/

theorem natCharsAux_spec : ∀ (fuel n : Nat) (acc : List Char), n < fuel →
    natCharsAux fuel n acc
      = (if n = 0 then ['0']
         else ((Nat.digits 10 n).map digitCh).reverse) ++ acc := by
  intro fuel
  induction fuel with
  | zero => intro n acc h; omega
  | succ fuel ih =>
    intro n acc h
    by_cases h10 : n < 10
    · simp only [natCharsAux]
      rw [if_pos h10]
      by_cases h0 : n = 0
      · rw [h0, if_pos rfl]
        rfl
      · have hd : Nat.digits 10 n = [n] := by
          rw [Nat.digits_def' (b := 10) (by norm_num) (by omega),
            Nat.mod_eq_of_lt h10, Nat.div_eq_of_lt h10]
          simp
        rw [if_neg h0, hd]
        simp
    · simp only [natCharsAux]
      rw [if_neg h10]
      have hlt : n / 10 < fuel := by omega
      rw [ih (n / 10) _ hlt, if_neg (by omega)]
      have hd : Nat.digits 10 n = n % 10 :: Nat.digits 10 (n / 10) :=
        Nat.digits_def' (b := 10) (by norm_num) (by omega)
      rw [if_neg (by omega), hd]
      simp

theorem natChars_eq (n : Nat) :
    natChars n
      = if n = 0 then ['0']
        else ((Nat.digits 10 n).map digitCh).reverse := by
  unfold natChars
  rw [natCharsAux_spec (n + 1) n [] (by omega)]
  simp

theorem natChars_ne_nil (n : Nat) : natChars n ≠ [] := by
  rw [natChars_eq]
  split_ifs with h
  · simp
  · simp [Nat.digits_ne_nil_iff_ne_zero, h]

theorem natChars_digits (n : Nat) : ∀ c ∈ natChars n, c.isDigit = true := by
  rw [natChars_eq]
  split_ifs with h
  · intro c hc
    rw [List.mem_singleton] at hc
    rw [hc]
    decide
  · intro c hc
    rw [List.mem_reverse, List.mem_map] at hc
    obtain ⟨d, hd, rfl⟩ := hc
    exact (digitCh_spec d (Nat.digits_lt_base (by omega) hd)).2

theorem digitsVal_rev (ds : List Nat) (h : ∀ d ∈ ds, d < 10) :
    digitsVal ((ds.map digitCh).reverse) = Nat.ofDigits 10 ds := by
  induction ds with
  | nil => simp [digitsVal, Nat.ofDigits_nil]
  | cons d t ih =>
    have hd : d < 10 := h d (by simp)
    have ht := ih (fun x hx => h x (by simp [hx]))
    rw [List.map_cons, List.reverse_cons]
    unfold digitsVal at ht ⊢
    rw [List.foldl_append, ht, List.foldl_cons, List.foldl_nil,
      (digitCh_spec d hd).1, Nat.ofDigits_cons]
    ring

theorem digitsVal_natChars (n : Nat) : digitsVal (natChars n) = n := by
  rw [natChars_eq]
  split_ifs with h
  · rw [h]; decide
  · rw [digitsVal_rev _ (fun d hd => Nat.digits_lt_base (by omega) hd),
      Nat.ofDigits_digits]

theorem natChars_head (n : Nat) :
    ∃ c t, natChars n = c :: t ∧ c.isDigit = true := by
  cases hnc : natChars n with
  | nil => exact absurd hnc (natChars_ne_nil n)
  | cons c t =>
    exact ⟨c, t, rfl, natChars_digits n c (hnc ▸ List.mem_cons_self c t)⟩

/-! ## Digit-run splitting -/

theorem splitDigits_boundary (rest : List Char) (h : numBoundary rest = true) :
    splitDigits rest = ([], rest) := by
  cases rest with
  | nil => rfl
  | cons c t =>
    have hc : c.isDigit = false := by
      simpa [numBoundary] using h
    simp [splitDigits, List.takeWhile, List.dropWhile, hc]

theorem splitDigits_append (ds rest : List Char)
    (hds : ∀ c ∈ ds, c.isDigit = true) (h : numBoundary rest = true) :
    splitDigits (ds ++ rest) = (ds, rest) := by
  induction ds with
  | nil => simpa using splitDigits_boundary rest h
  | cons c t ih =>
    have hc : c.isDigit = true := hds c (by simp)
    have ht := ih (fun x hx => hds x (by simp [hx]))
    simp only [splitDigits, List.cons_append, List.takeWhile, List.dropWhile,
      hc] at ht ⊢
    rw [Prod.mk.injEq] at ht
    obtain ⟨h1, h2⟩ := ht
    show (c :: List.takeWhile (fun c => c.isDigit) (t ++ rest),
      List.dropWhile (fun c => c.isDigit) (t ++ rest)) = (c :: t, rest)
    rw [h1, h2]

/-! ## Number round-trip -/

theorem parseVal_digit_dispatch (fuel : Nat) (c0 : Char) (r : List Char)
    (h : c0.isDigit = true) :
    parseVal (fuel + 1) (c0 :: r)
      = some (.jnum ((digitsVal (splitDigits (c0 :: r)).1 : Int)),
          (splitDigits (c0 :: r)).2) := by
  obtain ⟨h1, h2, h3, h4, h5, h6, h7, _, _, _, _⟩ := isDigit_not_marker c0 h
  simp only [parseVal]
  rw [if_neg h1, if_neg h2, if_neg h3, if_neg h4, if_neg h5, if_neg h6,
    if_neg h7, if_pos h]

theorem parseVal_minus_dispatch (fuel : Nat) (r : List Char) :
    parseVal (fuel + 1) ('-' :: r)
      = (match splitDigits r with
         | (d :: ds, r2) => some (.jnum (-(digitsVal (d :: ds) : Int)), r2)
         | ([], _) => none) := by
  simp only [parseVal]
  rw [if_neg (by decide), if_neg (by decide), if_neg (by decide),
    if_neg (by decide), if_neg (by decide), if_neg (by decide)]
  simp

theorem parseVal_int (n : Int) (fuel : Nat) (rest : List Char)
    (h : numBoundary rest = true) :
    parseVal (fuel + 1) (intChars n ++ rest) = some (.jnum n, rest) := by
  by_cases hn : n < 0
  · have harg : intChars n ++ rest = '-' :: (natChars n.natAbs ++ rest) := by
      simp [intChars, hn]
    rw [harg, parseVal_minus_dispatch,
      splitDigits_append _ _ (natChars_digits _) h]
    obtain ⟨c, t, hct, hd⟩ := natChars_head n.natAbs
    have hv : digitsVal (c :: t) = n.natAbs := by
      rw [← hct, digitsVal_natChars]
    have hint : -((digitsVal (c :: t) : Nat) : Int) = n := by
      rw [hv]; omega
    rw [hct]
    simp only [hint]
  · obtain ⟨c, t, hct, hd⟩ := natChars_head n.natAbs
    have harg : intChars n ++ rest = c :: (t ++ rest) := by
      simp [intChars, hn, hct]
    rw [harg, parseVal_digit_dispatch fuel c _ hd]
    have hsp : splitDigits (c :: (t ++ rest)) = (c :: t, rest) := by
      have hx := splitDigits_append (natChars n.natAbs) rest
        (natChars_digits _) h
      rw [hct] at hx
      simpa using hx
    rw [hsp]
    have hv : digitsVal (c :: t) = n.natAbs := by
      rw [← hct, digitsVal_natChars]
    have hint : ((digitsVal (c :: t) : Nat) : Int) = n := by
      rw [hv]; omega
    simp only [hint]

/-! ## String round-trip -/

theorem parseStrBody_escChar (c : Char) (rest : List Char) :
    parseStrBody (escChar c ++ rest)
      = (match parseStrBody rest with
         | some (l, r) => some (c :: l, r)
         | none => none) := by
  unfold escChar
  split_ifs with h1 h2 h3 h4 h5 h6 h7 h8
  · rw [h1]; simp [parseStrBody, unescCh]
  · rw [h2]; simp [parseStrBody, unescCh]
  · rw [h3]; simp [parseStrBody, unescCh]
  · rw [h4]; simp [parseStrBody, unescCh]
  · rw [h5]; simp [parseStrBody, unescCh]
  · rw [h6]; simp [parseStrBody, unescCh]
  · rw [h7]; simp [parseStrBody, unescCh]
  · have e16 : c.toNat / 16 < 16 := by omega
    have e16b : c.toNat % 16 < 16 := by omega
    have hz : hexValAt '0' = some 0 := by decide
    have hstep : parseStrBody (['\\', 'u', '0', '0',
        hexCh (c.toNat / 16), hexCh (c.toNat % 16)] ++ rest)
      = (match hexValAt '0', hexValAt '0', hexValAt (hexCh (c.toNat / 16)),
          hexValAt (hexCh (c.toNat % 16)) with
         | some va, some vb, some vc, some vd =>
           (match parseStrBody rest with
            | some (l, r3) =>
              some (Char.ofNat (((va * 16 + vb) * 16 + vc) * 16 + vd) :: l, r3)
            | none => none)
         | _, _, _, _ => none) := rfl
    have harith : ((0 * 16 + 0) * 16 + c.toNat / 16) * 16 + c.toNat % 16
        = c.toNat := by omega
    rw [hstep, hz, hexValAt_hexCh _ e16, hexValAt_hexCh _ e16b]
    simp only [harith, Char.ofNat_toNat]
  · show parseStrBody (c :: rest) = _
    rw [parseStrBody.eq_def]
    show (if c = '"' then some ([], rest)
      else if c = '\\' then _ else
        match parseStrBody rest with
        | some (l, r2) => some (c :: l, r2)
        | none => none) = _
    rw [if_neg h1, if_neg h2]

theorem parseStrBody_escList (l : List Char) (rest : List Char) :
    parseStrBody (escList l ++ '"' :: rest) = some (l, rest) := by
  induction l with
  | nil =>
    show parseStrBody ('"' :: rest) = some ([], rest)
    rw [parseStrBody.eq_def]
    simp
  | cons c t ih =>
    have hesc : escList (c :: t) = escChar c ++ escList t := by
      simp [escList]
    rw [hesc, List.append_assoc, parseStrBody_escChar, ih]

theorem parseVal_quote_dispatch (fuel : Nat) (r : List Char) :
    parseVal (fuel + 1) ('"' :: r)
      = (match parseStrBody r with
         | some (l, r2) => some (.jstr ⟨l⟩, r2)
         | none => none) := by
  simp only [parseVal]
  rw [if_neg (by decide), if_neg (by decide), if_neg (by decide)]
  simp

theorem parseVal_str (s0 : String) (fuel : Nat) (rest : List Char) :
    parseVal (fuel + 1) (quoteStr s0 ++ rest) = some (.jstr s0, rest) := by
  have harg : quoteStr s0 ++ rest = '"' :: (escList s0.data ++ '"' :: rest) := by
    simp [quoteStr]
  rw [harg, parseVal_quote_dispatch, parseStrBody_escList]

/-! ## Serialized-form shape lemmas -/

theorem jsonChars_head (v : JsonVal) :
    ∃ c t, jsonChars v = c :: t ∧ c ≠ ']' := by
  cases v with
  | jnull => exact ⟨'n', ['u', 'l', 'l'], by simp [jsonChars], by decide⟩
  | jbool b =>
    cases b with
    | true => exact ⟨'t', ['r', 'u', 'e'], by simp [jsonChars], by decide⟩
    | false =>
      exact ⟨'f', ['a', 'l', 's', 'e'], by simp [jsonChars], by decide⟩
  | jnum n =>
    by_cases hn : n < 0
    · exact ⟨'-', natChars n.natAbs, by simp [jsonChars, intChars, hn],
        by decide⟩
    · obtain ⟨c, t, hct, hd⟩ := natChars_head n.natAbs
      exact ⟨c, t, by simp [jsonChars, intChars, hn, hct],
        (isDigit_not_marker c hd).2.2.2.2.2.2.2.1⟩
  | jstr s0 =>
    exact ⟨'"', escList s0.data ++ ['"'], by simp [jsonChars, quoteStr],
      by decide⟩
  | jarr es =>
    exact ⟨'[', jsonElemsChars es ++ [']'], by simp [jsonChars], by decide⟩
  | jobj ms =>
    exact ⟨'\x7b', jsonMembersChars ms ++ ['\x7d'], by simp [jsonChars],
      by decide⟩

theorem jsonElemsChars_cons (v : JsonVal) (vs : List JsonVal) :
    jsonElemsChars (v :: vs)
      = jsonChars v
        ++ (match vs with
            | [] => []
            | _ :: _ => ',' :: jsonElemsChars vs) := by
  cases vs <;> simp [jsonElemsChars]

theorem jsonMembersChars_cons (k : String) (v : JsonVal)
    (ms : List (String × JsonVal)) :
    jsonMembersChars ((k, v) :: ms)
      = quoteStr k ++ ':' :: jsonChars v
        ++ (match ms with
            | [] => []
            | _ :: _ => ',' :: jsonMembersChars ms) := by
  cases ms with
  | nil => simp [jsonMembersChars]
  | cons kv2 ms2 => simp [jsonMembersChars]

/-! ## Container dispatch lemmas -/

theorem parseVal_lbracket_dispatch (fuel : Nat) (c0 : Char) (r : List Char)
    (h : c0 ≠ ']') :
    parseVal (fuel + 1) ('[' :: c0 :: r)
      = (match parseElems fuel (c0 :: r) with
         | some (vs, r2) => some (.jarr vs, r2)
         | none => none) := by
  simp only [parseVal]
  rw [if_neg (by decide), if_neg (by decide), if_neg (by decide),
    if_neg (by decide)]
  simp only [if_true]
  split
  · rename_i r2 heq
    injection heq with hc _
    exact absurd hc h
  · rfl

theorem parseVal_lbrace_dispatch (fuel : Nat) (r : List Char) :
    parseVal (fuel + 1) ('\x7b' :: '"' :: r)
      = (match parseMembers fuel ('"' :: r) with
         | some (ms, r2) => some (.jobj ms, r2)
         | none => none) := by
  simp only [parseVal]
  rw [if_neg (by decide), if_neg (by decide), if_neg (by decide),
    if_neg (by decide), if_neg (by decide)]
  simp only [if_true]
  rfl

/-! ## The codec round-trip -/

mutual

theorem jsonRt_val : ∀ (v : JsonVal) (fuel : Nat) (rest : List Char),
    (jsonChars v).length < fuel → numBoundary rest = true →
    parseVal fuel (jsonChars v ++ rest) = some (v, rest)
  | .jnull, fuel, rest, hf, _ => by
    cases fuel with
    | zero => exact absurd hf (by omega)
    | succ f =>
      rw [show jsonChars .jnull = ['n', 'u', 'l', 'l'] from by
        simp [jsonChars]]
      simp [parseVal]
  | .jbool true, fuel, rest, hf, _ => by
    cases fuel with
    | zero => exact absurd hf (by omega)
    | succ f =>
      rw [show jsonChars (.jbool true) = ['t', 'r', 'u', 'e'] from by
        simp [jsonChars]]
      simp [parseVal]
  | .jbool false, fuel, rest, hf, _ => by
    cases fuel with
    | zero => exact absurd hf (by omega)
    | succ f =>
      rw [show jsonChars (.jbool false) = ['f', 'a', 'l', 's', 'e'] from by
        simp [jsonChars]]
      simp [parseVal]
  | .jnum n, fuel, rest, hf, hr => by
    cases fuel with
    | zero => exact absurd hf (by omega)
    | succ f =>
      rw [show jsonChars (.jnum n) = intChars n from by simp [jsonChars]]
      exact parseVal_int n f rest hr
  | .jstr s0, fuel, rest, hf, _ => by
    cases fuel with
    | zero => exact absurd hf (by omega)
    | succ f =>
      rw [show jsonChars (.jstr s0) = quoteStr s0 from by simp [jsonChars]]
      exact parseVal_str s0 f rest
  | .jarr [], fuel, rest, hf, _ => by
    cases fuel with
    | zero => exact absurd hf (by omega)
    | succ f =>
      rw [show jsonChars (.jarr []) = ['[', ']'] from by
        simp [jsonChars, jsonElemsChars]]
      simp [parseVal]
  | .jarr (v :: vs), fuel, rest, hf, _ => by
    cases fuel with
    | zero => exact absurd hf (by omega)
    | succ f =>
      obtain ⟨c, t, hct, hcb⟩ := jsonChars_head v
      have hshape : jsonChars (.jarr (v :: vs))
          = '[' :: (jsonElemsChars (v :: vs) ++ [']']) := by
        simp [jsonChars]
      have harg : jsonChars (.jarr (v :: vs)) ++ rest
          = '[' :: (jsonElemsChars (v :: vs) ++ ']' :: rest) := by
        rw [hshape]
        simp [List.append_assoc]
      have hex : ∃ t2, jsonElemsChars (v :: vs) ++ ']' :: rest = c :: t2 := by
        cases vs with
        | nil =>
          refine ⟨t ++ ']' :: rest, ?_⟩
          rw [show jsonElemsChars [v] = jsonChars v from by
            simp [jsonElemsChars], hct]
          simp
        | cons a b =>
          refine ⟨t ++ (',' :: jsonElemsChars (a :: b) ++ ']' :: rest), ?_⟩
          rw [show jsonElemsChars (v :: a :: b)
              = jsonChars v ++ ',' :: jsonElemsChars (a :: b) from by
            simp [jsonElemsChars], hct]
          simp
      obtain ⟨t2, ht2⟩ := hex
      have hlen : (jsonElemsChars (v :: vs)).length + 1 < f := by
        rw [hshape] at hf
        simp only [List.length_cons, List.length_append,
          List.length_singleton] at hf
        omega
      rw [harg, ht2, parseVal_lbracket_dispatch f c t2 hcb, ← ht2,
        jsonRt_elems v vs f rest hlen]
  | .jobj [], fuel, rest, hf, _ => by
    cases fuel with
    | zero => exact absurd hf (by omega)
    | succ f =>
      rw [show jsonChars (.jobj []) = ['\x7b', '\x7d'] from by
        simp [jsonChars, jsonMembersChars]]
      simp [parseVal]
  | .jobj ((k, v) :: ms), fuel, rest, hf, _ => by
    cases fuel with
    | zero => exact absurd hf (by omega)
    | succ f =>
      have hshape : jsonChars (.jobj ((k, v) :: ms))
          = '\x7b' :: (jsonMembersChars ((k, v) :: ms) ++ ['\x7d']) := by
        simp [jsonChars]
      have harg : jsonChars (.jobj ((k, v) :: ms)) ++ rest
          = '\x7b' :: (jsonMembersChars ((k, v) :: ms) ++ '\x7d' :: rest) := by
        rw [hshape]
        simp [List.append_assoc]
      have hex : ∃ r2, jsonMembersChars ((k, v) :: ms) ++ '\x7d' :: rest
          = '"' :: r2 := by
        cases ms with
        | nil =>
          refine ⟨escList k.data
            ++ '"' :: (':' :: (jsonChars v ++ '\x7d' :: rest)), ?_⟩
          rw [show jsonMembersChars [(k, v)]
              = quoteStr k ++ ':' :: jsonChars v from by
            simp [jsonMembersChars]]
          simp [quoteStr, List.append_assoc]
        | cons a b =>
          refine ⟨escList k.data
            ++ '"' :: (':' :: (jsonChars v
              ++ ',' :: (jsonMembersChars (a :: b) ++ '\x7d' :: rest))), ?_⟩
          rw [show jsonMembersChars ((k, v) :: a :: b)
              = quoteStr k ++ ':' :: jsonChars v
                ++ ',' :: jsonMembersChars (a :: b) from by
            simp [jsonMembersChars]]
          simp [quoteStr, List.append_assoc]
      obtain ⟨r2, hr2⟩ := hex
      have hlen : (jsonMembersChars ((k, v) :: ms)).length + 1 < f := by
        rw [hshape] at hf
        simp only [List.length_cons, List.length_append,
          List.length_singleton] at hf
        omega
      rw [harg, hr2, parseVal_lbrace_dispatch f r2, ← hr2,
        jsonRt_members k v ms f rest hlen]
  termination_by v _ _ _ _ => sizeOf v

theorem jsonRt_elems : ∀ (v : JsonVal) (vs : List JsonVal) (fuel : Nat)
    (rest : List Char),
    (jsonElemsChars (v :: vs)).length + 1 < fuel →
    parseElems fuel (jsonElemsChars (v :: vs) ++ ']' :: rest)
      = some (v :: vs, rest)
  | v, [], fuel, rest, hf => by
    cases fuel with
    | zero => exact absurd hf (by omega)
    | succ f =>
      have hsh : jsonElemsChars [v] = jsonChars v := by simp [jsonElemsChars]
      have hlen : (jsonChars v).length < f := by
        rw [hsh] at hf
        omega
      simp only [parseElems]
      rw [hsh]
      simp [jsonRt_val v f (']' :: rest) hlen (by rfl)]
  | v, v2 :: vs2, fuel, rest, hf => by
    cases fuel with
    | zero => exact absurd hf (by omega)
    | succ f =>
      have hsh : jsonElemsChars (v :: v2 :: vs2)
          = jsonChars v ++ ',' :: jsonElemsChars (v2 :: vs2) := by
        rw [jsonElemsChars_cons]
      have hlens : (jsonElemsChars (v :: v2 :: vs2)).length
          = (jsonChars v).length + 1
            + (jsonElemsChars (v2 :: vs2)).length := by
        rw [hsh]
        simp
        omega
      have hlen1 : (jsonChars v).length < f := by omega
      have hlen2 : (jsonElemsChars (v2 :: vs2)).length + 1 < f := by omega
      have harg : jsonElemsChars (v :: v2 :: vs2) ++ ']' :: rest
          = jsonChars v
            ++ ',' :: (jsonElemsChars (v2 :: vs2) ++ ']' :: rest) := by
        rw [hsh]
        simp [List.append_assoc]
      simp only [parseElems]
      rw [harg]
      simp [jsonRt_val v f
          (',' :: (jsonElemsChars (v2 :: vs2) ++ ']' :: rest)) hlen1 (by rfl),
        jsonRt_elems v2 vs2 f rest hlen2]
  termination_by v vs _ _ _ => sizeOf v + sizeOf vs

theorem jsonRt_members : ∀ (k : String) (v : JsonVal)
    (ms : List (String × JsonVal)) (fuel : Nat) (rest : List Char),
    (jsonMembersChars ((k, v) :: ms)).length + 1 < fuel →
    parseMembers fuel (jsonMembersChars ((k, v) :: ms) ++ '\x7d' :: rest)
      = some ((k, v) :: ms, rest)
  | k, v, [], fuel, rest, hf => by
    cases fuel with
    | zero => exact absurd hf (by omega)
    | succ f =>
      have hsh : jsonMembersChars [(k, v)]
          = quoteStr k ++ ':' :: jsonChars v := by
        simp [jsonMembersChars]
      have hlen : (jsonChars v).length < f := by
        rw [hsh] at hf
        simp only [List.length_append, List.length_cons, quoteStr] at hf
        omega
      have harg : jsonMembersChars [(k, v)] ++ '\x7d' :: rest
          = '"' :: (escList k.data
              ++ '"' :: (':' :: (jsonChars v ++ '\x7d' :: rest))) := by
        rw [hsh]
        simp [quoteStr, List.append_assoc]
      simp only [parseMembers]
      rw [harg]
      simp [parseStrBody_escList,
        jsonRt_val v f ('\x7d' :: rest) hlen (by rfl)]
  | k, v, (k2, v2) :: ms2, fuel, rest, hf => by
    cases fuel with
    | zero => exact absurd hf (by omega)
    | succ f =>
      have hsh : jsonMembersChars ((k, v) :: (k2, v2) :: ms2)
          = quoteStr k ++ ':' :: jsonChars v
            ++ ',' :: jsonMembersChars ((k2, v2) :: ms2) := by
        rw [jsonMembersChars_cons]
      have hlens : (jsonMembersChars ((k, v) :: (k2, v2) :: ms2)).length
          = (quoteStr k).length + 1 + (jsonChars v).length + 1
            + (jsonMembersChars ((k2, v2) :: ms2)).length := by
        rw [hsh]
        simp
        omega
      have hlen1 : (jsonChars v).length < f := by omega
      have hlen2 : (jsonMembersChars ((k2, v2) :: ms2)).length + 1 < f := by
        omega
      have harg : jsonMembersChars ((k, v) :: (k2, v2) :: ms2)
            ++ '\x7d' :: rest
          = '"' :: (escList k.data
              ++ '"' :: (':' :: (jsonChars v
                ++ ',' :: (jsonMembersChars ((k2, v2) :: ms2)
                  ++ '\x7d' :: rest)))) := by
        rw [hsh]
        simp [quoteStr, List.append_assoc]
      simp only [parseMembers]
      rw [harg]
      simp [parseStrBody_escList, jsonRt_val v f
          (',' :: (jsonMembersChars ((k2, v2) :: ms2) ++ '\x7d' :: rest))
          hlen1 (by rfl),
        jsonRt_members k2 v2 ms2 f rest hlen2]
  termination_by k v ms _ _ _ => sizeOf v + sizeOf ms

end

/-! ## Claim C8 -/

/-- C8: for a structured/composite body reaching the final branch,
`respond` serializes it to the canonical textual form — whose
deserialization round-trips to the same structural value — sets the
length header to the serialized form's byte length when headers are
unsent, and ends with the serialized payload. -/
theorem respond_json_canonical (c : Ctx) (v : JsonVal)
    (hb : c.body = .json v) (hs : emptyStatus c.status = false)
    (hm : c.method ≠ "HEAD") (h1 : c.respond ≠ some false)
    (h2 : c.writable = true) :
    (respond c).res.events
      = c.res.events ++ [.endCall (some (utf8Bytes (jsonStringify v)))] ∧
    (c.res.headersSent = false →
      (respond c).res.headers.lookup "Content-Length"
        = some (toString (byteLength (jsonStringify v)))) ∧
    parseJson (jsonStringify v) = some v := by
  refine ⟨?_, ?_, ?_⟩
  · rw [respond_eq_json c h1 h2 hs hm v hb]
    cases hhs : c.res.headersSent <;> simp [hhs, Res.endWith, Res.setHeader]
  · intro hhs
    rw [respond_eq_json c h1 h2 hs hm v hb, if_pos hhs]
    show (setKey c.res.headers "Content-Length"
        (toString (byteLength (jsonStringify v)))).lookup "Content-Length"
      = some (toString (byteLength (jsonStringify v)))
    rw [lookup_setKey_self]
  · have hlen : (jsonChars v).length < (jsonStringify v).length + 1 := by
      have he : (jsonStringify v).length = (jsonChars v).length := rfl
      omega
    have hrt := jsonRt_val v ((jsonStringify v).length + 1) [] hlen (by rfl)
    rw [List.append_nil] at hrt
    unfold parseJson
    rw [show (jsonStringify v).data = jsonChars v from rfl, hrt]

/-- Witness for C8 at a nested object body: the serialized form, its
length header, and the parse-back are all concrete. -/
theorem respond_json_canonical_witness :
    jsonStringify (.jobj [("a", .jnum (-1)),
        ("b", .jarr [.jnull, .jbool true, .jstr "x"])])
      = "\x7b\"a\":-1,\"b\":[null,true,\"x\"]\x7d" ∧
    (respond
        { respond := none, writable := true, method := "GET",
          httpVersionMajor := 1,
          body := .json (.jobj [("a", .jnum (-1)),
            ("b", .jarr [.jnull, .jbool true, .jstr "x"])]),
          explicitNullBody := false, res := res200 }).res.events
      = [.endCall (some [123, 34, 97, 34, 58, 45, 49, 44, 34, 98, 34, 58,
          91, 110, 117, 108, 108, 44, 116, 114, 117, 101, 44, 34, 120, 34,
          93, 125])] ∧
    (respond
        { respond := none, writable := true, method := "GET",
          httpVersionMajor := 1,
          body := .json (.jobj [("a", .jnum (-1)),
            ("b", .jarr [.jnull, .jbool true, .jstr "x"])]),
          explicitNullBody := false, res := res200 }).res.headers.lookup
        "Content-Length" = some "28" ∧
    parseJson (jsonStringify (.jobj [("a", .jnum (-1)),
        ("b", .jarr [.jnull, .jbool true, .jstr "x"])]))
      = some (.jobj [("a", .jnum (-1)),
          ("b", .jarr [.jnull, .jbool true, .jstr "x"])]) := by
  have h := respond_json_canonical
    { respond := none, writable := true, method := "GET",
      httpVersionMajor := 1,
      body := .json (.jobj [("a", .jnum (-1)),
        ("b", .jarr [.jnull, .jbool true, .jstr "x"])]),
      explicitNullBody := false, res := res200 }
    (.jobj [("a", .jnum (-1)), ("b", .jarr [.jnull, .jbool true, .jstr "x"])])
    rfl rfl (by decide) (by decide) rfl
  refine ⟨rfl, ?_, ?_, h.2.2⟩
  · rw [h.1]
    rfl
  · rw [h.2.1 rfl]
    rfl

end Koa
